import Mathlib

/-!
Verification development for `bw2analyzer/report.py` (`SerializedLCAReport`).

The module orchestrates an LCA report: the external collaborators (LCA engine,
contribution analysis, graph traversal, the `ParallelMonteCarlo` sampler, the
`gaussian_kde` smoother, `requests`, `JsonWrapper`) are modelled as opaque
inputs, while every piece of logic written in `report.py` itself — the Monte
Carlo post-processing pipeline of `get_monte_carlo`, the report assembly of
`calculate`, `write` and `upload` — is translated function by function below.

Numeric modelling choices:
* Python floats are modelled as exact rationals (`ℚ`); the literals `0.015`,
  `0.985`, `0.025` become `15/1000`, `985/1000`, `1/40`.
* `int(x)` (truncation toward zero) is `pyInt`; on the nonnegative values that
  occur in this code it coincides with `Nat.floor` (lemma `pyInt_eq_floor`).
* `np.array(...).sort()` is an ascending sort; `np.unique(a).shape[0]` is
  `List.dedup.length`.
* `scipy.stats.gaussian_kde` raises (`LinAlgError` / empty-data error) when the
  dataset is empty or has zero variance, i.e. fewer than two distinct points;
  `get_monte_carlo` is therefore modelled as `Except`-valued, with the kernel
  density estimator itself an opaque function parameter `kde`.
-/

namespace BW2Report

set_option maxRecDepth 10000

/-- Python `int(q)` for a rational `q`: truncation toward zero.  Every use in
`report.py` applies it to a nonnegative quantity, where truncation agrees with
the mathematical floor (`pyInt_eq_floor`). -/
def pyInt (q : ℚ) : ℕ :=
  q.floor.toNat

/-- `mc_data.sort()`: ascending sort of the raw Monte Carlo scores. -/
def pySort (l : List ℚ) : List ℚ :=
  l.insertionSort (· ≤ ·)

/-- Python slice `l[offset:-offset]`.  The stop index `-offset` means
`len(l) - offset` when `offset > 0`, but `-0 == 0`, so for `offset = 0` the
slice is `l[0:0] = []`. -/
def pySliceSym (l : List ℚ) (offset : ℕ) : List ℚ :=
  if offset = 0 then [] else (l.drop offset).take (l.length - 2 * offset)

/-- Lines 81/84 of `report.py`:
`offset = int(self.outliers * mc_data.shape[0]); mc_data = mc_data[offset:-offset]`. -/
def trimmedSamples (sorted : List ℚ) (outliers : ℚ) : List ℚ :=
  pySliceSym sorted (pyInt (outliers * (sorted.length : ℚ)))

/-- Lines 85-88: `num_bins = max(100, min(20, int(np.sqrt(self.iterations))))`
(`Nat.sqrt` is the floor of the square root, matching `int(np.sqrt(·))`). -/
def numBins (iterations : ℕ) : ℕ :=
  max 100 (min 20 (Nat.sqrt iterations))

/-- Lines 82-83: `lower = mc_data[int(0.015 * self.iterations)]` and
`upper = mc_data[int(0.985 * self.iterations)]`, read from the *untrimmed*
sorted samples.  (For a sample list of positive length `n = iterations` both
indices are in range; `getD` supplies an irrelevant default.) -/
def mcInterval (iterations : ℕ) (mcData : List ℚ) : ℚ × ℚ :=
  (mcData.getD (pyInt ((15 / 1000 : ℚ) * iterations)) 0,
   mcData.getD (pyInt ((985 / 1000 : ℚ) * iterations)) 0)

/-- `np.linspace(start, stop, num)`: `num` evenly spaced points from `start`
to `stop` inclusive. -/
def linspace (start stop : ℚ) (num : ℕ) : List ℚ :=
  (List.range num).map fun (i : ℕ) => start + (i : ℚ) * (stop - start) / ((num : ℚ) - 1)

/-- `data.min()` (default 0 is never used on the reachable, nonempty path). -/
def mcLo (l : List ℚ) : ℚ :=
  l.min?.getD 0

/-- `data.max()`. -/
def mcHi (l : List ℚ) : ℚ :=
  l.max?.getD 0

/-- Bin edges of `np.histogram(data, bins)`: `bins + 1` evenly spaced edges
over `[min, max]`; numpy widens a degenerate range by `0.5` on each side. -/
def histEdges (lo hi : ℚ) (bins : ℕ) : List ℚ :=
  if lo = hi then linspace (lo - 1 / 2) (hi + 1 / 2) (bins + 1)
  else linspace lo hi (bins + 1)

/-- Line 98: `np.histogram(mc_data, bins=num_bins, density=True)`, returning
(normalized heights, bin edges).  Bin `i` is the half-open interval
`[edges i, edges (i+1))`, except the last bin which is closed; with
`density=True` each count is divided by `total * bin_width`. -/
def histDensity (data : List ℚ) (bins : ℕ) : List ℚ × List ℚ :=
  let edges := histEdges (mcLo data) (mcHi data) bins
  let counts := (List.range bins).map fun i =>
    if i + 1 = bins then
      data.countP fun x => decide (edges.getD i 0 ≤ x) && decide (x ≤ edges.getD (i + 1) 0)
    else
      data.countP fun x => decide (edges.getD i 0 ≤ x) && decide (x < edges.getD (i + 1) 0)
  let heights := (List.range bins).map fun i =>
    ((counts.getD i 0 : ℕ) : ℚ) / ((edges.getD (i + 1) 0 - edges.getD i 0) * (counts.sum : ℚ))
  (heights, edges)

/-- `np.median` of a list (average of the two middle elements of the sorted
list when the length is even; default 0 only on the unreachable empty case). -/
def npMedian (l : List ℚ) : ℚ :=
  let s := pySort l
  if s.length % 2 = 1 then s.getD (s.length / 2) 0
  else (s.getD (s.length / 2 - 1) 0 + s.getD (s.length / 2) 0) / 2

/-- `np.mean` of a list. -/
def npMean (l : List ℚ) : ℚ :=
  l.sum / (l.length : ℚ)

/-- The `"monte carlo"` summary dictionary returned on the success path of
`get_monte_carlo` (lines 104-112 of `report.py`). -/
structure MCSummary where
  smoothed : List (ℚ × ℚ)
  histogram : List (ℚ × ℚ)
  median : ℚ
  mean : ℚ
  interval : ℚ × ℚ
deriving DecidableEq

/-- Success-path body of `get_monte_carlo` (lines 81-112): trim the sorted
samples, evaluate the KDE on 500 points of `np.linspace(min, max, 500)`, build
the step-function histogram polyline by duplicating the bin edges
(`np.repeat(hist_xs, 2)`) and the bin heights, padding the heights with a
leading and a trailing zero (`np.hstack((0, np.repeat(hist_ys, 2), 0))`), and
assemble the statistics. -/
def mcSummaryOf (iterations : ℕ) (mcData : List ℚ) (outliers : ℚ)
    (kde : List ℚ → ℚ → ℚ) : MCSummary :=
  { smoothed :=
      (linspace (mcLo (trimmedSamples mcData outliers)) (mcHi (trimmedSamples mcData outliers))
          500).zip
        ((linspace (mcLo (trimmedSamples mcData outliers)) (mcHi (trimmedSamples mcData outliers))
            500).map (kde (trimmedSamples mcData outliers)))
    histogram :=
      ((histDensity (trimmedSamples mcData outliers) (numBins iterations)).2.flatMap
          fun x => [x, x]).zip
        ([(0 : ℚ)]
          ++ ((histDensity (trimmedSamples mcData outliers) (numBins iterations)).1.flatMap
              fun y => [y, y])
          ++ [(0 : ℚ)])
    median := npMedian (trimmedSamples mcData outliers)
    mean := npMean (trimmedSamples mcData outliers)
    interval := mcInterval iterations mcData }

/-- `SerializedLCAReport.get_monte_carlo` (lines 66-112).  `sampler` models
`ParallelMonteCarlo(...).calculate()` (receiving `iterations` and `cpus`),
`kde` models `gaussian_kde(data).evaluate` pointwise.  Returns
`.ok none` when no Monte Carlo is requested (`iterations == 0`) or the data
has no uncertainty (one distinct value); `.error` models the exception raised
by `gaussian_kde` when the trimmed data has fewer than two distinct values. -/
def getMonteCarlo (iterations : ℕ) (cpus : Option ℕ)
    (sampler : ℕ → Option ℕ → List ℚ) (outliers : ℚ)
    (kde : List ℚ → ℚ → ℚ) : Except String (Option MCSummary) :=
  if iterations = 0 then .ok none
  else if (pySort (sampler iterations cpus)).dedup.length = 1 then .ok none
  else if (trimmedSamples (pySort (sampler iterations cpus)) outliers).dedup.length ≤ 1 then
    .error "LinAlgError: singular data passed to gaussian_kde"
  else
    .ok (some (mcSummaryOf iterations (pySort (sampler iterations cpus)) outliers kde))

/-- The `"metadata"` sub-dictionary of the report. -/
structure ReportMetadata where
  type : String
  version : ℕ
  uuid : String
  online : Option String
deriving DecidableEq

/-- The assembled report document (`self.report`).  Values produced by the
external collaborators (contribution analysis, graph traversal, LCA score)
are carried as opaque payloads. -/
structure Report where
  activity : List (String × String × String)
  methodName : String
  methodUnit : String
  score : ℚ
  hinton : String
  treemap : String
  herfindahl : ℚ
  concentration : ℚ
  forceDirected : String
  monteCarlo : Option MCSummary
  metadata : ReportMetadata
deriving DecidableEq

/-- Results of the external collaborators consumed by `calculate`. -/
structure Externals where
  activityRows : List (String × String × String)
  methodUnit : String
  score : ℚ
  hinton : String
  treemap : String
  herfindahl : ℚ
  concentration : ℚ
  forceDirected : String
  sampler : ℕ → Option ℕ → List ℚ
  kde : List ℚ → ℚ → ℚ

/-- The `SerializedLCAReport` object state. -/
structure SerializedLCAReport where
  activity : String
  method : List String
  iterations : ℕ
  cpus : Option ℕ
  outliers : ℚ
  uuid : String
  report : Option Report

/-- Class attribute `version = 1`. -/
def SerializedLCAReport.version : ℕ :=
  1

/-- `__init__` (lines 15-24): stores the parameters and generates
`uuid.uuid4().hex` exactly once; `freshUuid` models the fresh hex string.
Source defaults: `iterations=10000`, `cpus=None`, `outliers=0.025`. -/
def SerializedLCAReport.init (activity : String) (method : List String) (iterations : ℕ)
    (cpus : Option ℕ) (outliers : ℚ) (freshUuid : String) : SerializedLCAReport :=
  { activity := activity
    method := method
    iterations := iterations
    cpus := cpus
    outliers := outliers
    uuid := freshUuid
    report := none }

/-- `calculate` (lines 26-64): runs the collaborators and assembles
`self.report`.  A failure inside `get_monte_carlo` propagates. -/
def SerializedLCAReport.calculate (s : SerializedLCAReport) (ext : Externals) :
    Except String SerializedLCAReport :=
  match getMonteCarlo s.iterations s.cpus ext.sampler s.outliers ext.kde with
  | .error e => .error e
  | .ok mc =>
    let doc : Report :=
      { activity := ext.activityRows
        methodName := String.intercalate ": " s.method
        methodUnit := ext.methodUnit
        score := ext.score
        hinton := ext.hinton
        treemap := ext.treemap
        herfindahl := ext.herfindahl
        concentration := ext.concentration
        forceDirected := ext.forceDirected
        monteCarlo := mc
        metadata :=
          { type := "Brightway2 serialized LCA report"
            version := SerializedLCAReport.version
            uuid := s.uuid
            online := none } }
    .ok { s with report := some doc }

/-- `write` (lines 123-127): the filename `"report.%s.json" % self.uuid` under
the configured reports directory (the directory and the JSON dump are
external). -/
def SerializedLCAReport.write (s : SerializedLCAReport) : String :=
  "report." ++ s.uuid ++ ".json"

/-- Python truthiness of `config.p.get("report_server_url", None)`. -/
def pyTruthyStr : Option String → Bool
  | none => false
  | some s => s != ""

/-- `if url[-1] != "/": url += "/"` (line 134-135). -/
def normalizeUrl (u : String) : String :=
  if u.back = '/' then u else u ++ "/"

/-- `Report.setOnline`: `self.report["metadata"]["online"] = report_url`. -/
def Report.setOnline (r : Report) (url : String) : Report :=
  { r with metadata := { r.metadata with online := some url } }

/-- `upload` (lines 129-146).  `uploadReports` and `reportServerUrl` model
`config.p.get("upload_reports", False)` and
`config.p.get("report_server_url", None)`; `status` models
`requests.post(...).status_code`.  Returns `.ok (some url, ...)` on a 200
response (the Python `report_url` return) and `.ok (none, ...)` otherwise (the
Python `return False` sentinel); accessing the missing `self.report` before
`calculate` is the Python `AttributeError`. -/
def SerializedLCAReport.upload (s : SerializedLCAReport) (uploadReports : Bool)
    (reportServerUrl : Option String) (status : ℕ) :
    Except String (Option String × SerializedLCAReport) :=
  if !uploadReports || !(pyTruthyStr reportServerUrl) then
    .error "Report uploading not allowed"
  else
    let url := normalizeUrl (reportServerUrl.getD "")
    match s.report with
    | none => .error "AttributeError: report"
    | some r =>
      if status = 200 then
        let reportUrl := url ++ "report/" ++ s.uuid
        .ok (some reportUrl, { s with report := some (r.setOnline reportUrl) })
      else
        .ok (none, s)

/-! ### Concrete example states (used to exhibit satisfiable hypotheses) -/

/-- A report with `iterations = 0` (no Monte Carlo requested). -/
def wState : SerializedLCAReport :=
  SerializedLCAReport.init "wood" ["IPCC", "GWP"] 0 none (1 / 40) "deadbeef"

/-- External collaborator results for the example. -/
def wExt : Externals :=
  { activityRows := []
    methodUnit := "kg"
    score := 2
    hinton := "h"
    treemap := "t"
    herfindahl := 0
    concentration := 0
    forceDirected := "fd"
    sampler := fun _ _ => []
    kde := fun _ _ => 0 }

/-- The report document assembled by `calculate` on `wState` and `wExt`. -/
def wReport : Report :=
  { activity := []
    methodName := "IPCC: GWP"
    methodUnit := "kg"
    score := 2
    hinton := "h"
    treemap := "t"
    herfindahl := 0
    concentration := 0
    forceDirected := "fd"
    monteCarlo := none
    metadata :=
      { type := "Brightway2 serialized LCA report"
        version := 1
        uuid := "deadbeef"
        online := none } }

/-- The state produced by `calculate` on `wState` and `wExt`. -/
def wCalculated : SerializedLCAReport :=
  { wState with report := some wReport }

/-- The report URL constructed by a successful upload of `wCalculated`. -/
def wReportUrl : String :=
  normalizeUrl "http://srv/" ++ "report/" ++ wCalculated.uuid

/-- The state after a successful upload of `wCalculated`. -/
def wOnline : SerializedLCAReport :=
  { wCalculated with report := some (wReport.setOnline wReportUrl) }

/-- A calculated report document for the upload examples. -/
def u9Report : Report :=
  { activity := []
    methodName := "m"
    methodUnit := "kg"
    score := 1
    hinton := ""
    treemap := ""
    herfindahl := 0
    concentration := 0
    forceDirected := ""
    monteCarlo := none
    metadata :=
      { type := "Brightway2 serialized LCA report"
        version := 1
        uuid := "aa11"
        online := none } }

/-- A report state holding `u9Report`. -/
def u9State : SerializedLCAReport :=
  { activity := "a"
    method := ["m"]
    iterations := 5
    cpus := none
    outliers := 1 / 40
    uuid := "aa11"
    report := some u9Report }

/-- A second calculated report document. -/
def u10Report : Report :=
  { activity := []
    methodName := "m2"
    methodUnit := "pt"
    score := 3
    hinton := ""
    treemap := ""
    herfindahl := 0
    concentration := 0
    forceDirected := ""
    monteCarlo := none
    metadata :=
      { type := "Brightway2 serialized LCA report"
        version := 1
        uuid := "bb22"
        online := none } }

/-- A second report state holding `u10Report`. -/
def u10State : SerializedLCAReport :=
  { activity := "b"
    method := ["m2"]
    iterations := 7
    cpus := some 2
    outliers := 1 / 40
    uuid := "bb22"
    report := some u10Report }

/-! ### Helper lemmas -/

/-- `pyInt` agrees with the mathematical floor `⌊·⌋₊` on all of `ℚ`
(both truncate negatives to `0` on the `ℕ` side). -/
lemma pyInt_eq_floor (q : ℚ) : pyInt q = ⌊q⌋₊ := by
  rw [pyInt, Rat.floor_def', ← Rat.floor_def]
  exact Int.floor_toNat q

lemma pySort_length (l : List ℚ) : (pySort l).length = l.length :=
  (List.perm_insertionSort _ _).length_eq

lemma pySliceSym_length (l : List ℚ) (o : ℕ) (ho : o ≠ 0) :
    (pySliceSym l o).length = l.length - 2 * o := by
  unfold pySliceSym
  rw [if_neg ho]
  simp only [List.length_take, List.length_drop]
  omega

lemma zip_self_map (l : List ℚ) (f : ℚ → ℚ) :
    l.zip (l.map f) = l.map fun a => (a, f a) := by
  induction l with
  | nil => rfl
  | cons a l ih => simp [List.zip_cons_cons, ih]

lemma dup_length (l : List ℚ) : (l.flatMap fun x => [x, x]).length = 2 * l.length := by
  induction l with
  | nil => rfl
  | cons a l ih =>
    simp only [List.flatMap_cons, List.length_append, List.length_cons, ih]
    simp
    omega

lemma dup_mem {l : List ℚ} {y : ℚ} (h : y ∈ l.flatMap fun x => [x, x]) : y ∈ l := by
  obtain ⟨x, hx, hy⟩ := List.mem_flatMap.1 h
  have : y = x := by simpa using hy
  rw [this]
  exact hx

lemma dedup_all_eq (l : List ℚ) (c : ℚ) :
    l ≠ [] → (∀ x ∈ l, x = c) → l.dedup = [c] := by
  induction l with
  | nil => intro h; exact absurd rfl h
  | cons a l ih =>
    intro _ hall
    have hac : a = c := hall a (by simp)
    by_cases hl : l = []
    · subst hl
      rw [hac, List.dedup_cons_of_not_mem (by simp), List.dedup_nil]
    · have hdl : l.dedup = [c] := ih hl fun x hx => hall x (by simp [hx])
      have hmem : a ∈ l := by
        obtain ⟨y, hy⟩ := List.exists_mem_of_ne_nil l hl
        have hyc : y = c := hall y (by simp [hy])
        rw [hac, ← hyc]
        exact hy
      rw [List.dedup_cons_of_mem hmem, hdl]

lemma linspace_length (lo hi : ℚ) (n : ℕ) : (linspace lo hi n).length = n := by
  simp [linspace]

lemma linspace_getD (lo hi : ℚ) {n i : ℕ} (h : i < n) :
    (linspace lo hi n).getD i 0 = lo + (i : ℚ) * (hi - lo) / ((n : ℚ) - 1) := by
  unfold linspace
  rw [List.getD_eq_getElem?_getD, List.getElem?_map, List.getElem?_range h]
  rfl

lemma linspace_pairwise {lo hi : ℚ} {n : ℕ} (h : lo < hi) (hn : 2 ≤ n) :
    (linspace lo hi n).Pairwise (· < ·) := by
  unfold linspace
  rw [List.pairwise_map]
  refine List.Pairwise.imp ?_ (List.pairwise_lt_range n)
  intro a b hab
  have hc : (0 : ℚ) < (n : ℚ) - 1 := by
    have : (2 : ℚ) ≤ (n : ℚ) := by exact_mod_cast hn
    linarith
  have hm : (a : ℚ) * (hi - lo) < (b : ℚ) * (hi - lo) :=
    mul_lt_mul_of_pos_right (by exact_mod_cast hab) (sub_pos.2 h)
  have := (div_lt_div_iff_of_pos_right hc).2 hm
  linarith

lemma linspace_start_mem {lo hi : ℚ} {n : ℕ} (hn : 0 < n) : lo ∈ linspace lo hi n := by
  unfold linspace
  refine List.mem_map.2 ⟨0, List.mem_range.2 hn, ?_⟩
  simp

lemma linspace_stop_mem {lo hi : ℚ} {n : ℕ} (hn : 2 ≤ n) : hi ∈ linspace lo hi n := by
  unfold linspace
  refine List.mem_map.2 ⟨n - 1, List.mem_range.2 (by omega), ?_⟩
  have h1 : 1 ≤ n := by omega
  have hc' : ((n - 1 : ℕ) : ℚ) = (n : ℚ) - 1 := by
    rw [Nat.cast_sub h1, Nat.cast_one]
  have hc : ((n : ℚ) - 1) ≠ 0 := by
    have : (2 : ℚ) ≤ (n : ℚ) := by exact_mod_cast hn
    linarith
  rw [hc']
  field_simp

lemma linspace_mem_bounds {lo hi : ℚ} {n : ℕ} (h : lo ≤ hi) (hn : 2 ≤ n) :
    ∀ x ∈ linspace lo hi n, lo ≤ x ∧ x ≤ hi := by
  intro x hx
  unfold linspace at hx
  obtain ⟨i, hi', rfl⟩ := List.mem_map.1 hx
  have hin : i < n := List.mem_range.1 hi'
  have hc : (0 : ℚ) < (n : ℚ) - 1 := by
    have : (2 : ℚ) ≤ (n : ℚ) := by exact_mod_cast hn
    linarith
  have hiq : (i : ℚ) ≤ (n : ℚ) - 1 := by
    have : (i : ℚ) + 1 ≤ (n : ℚ) := by exact_mod_cast hin
    linarith
  constructor
  · have : 0 ≤ (i : ℚ) * (hi - lo) / ((n : ℚ) - 1) :=
      div_nonneg (mul_nonneg (Nat.cast_nonneg i) (sub_nonneg.2 h)) hc.le
    linarith
  · have h1 : (i : ℚ) * (hi - lo) ≤ ((n : ℚ) - 1) * (hi - lo) :=
      mul_le_mul_of_nonneg_right hiq (sub_nonneg.2 h)
    have h2 : (i : ℚ) * (hi - lo) / ((n : ℚ) - 1) ≤ ((n : ℚ) - 1) * (hi - lo) / ((n : ℚ) - 1) :=
      (div_le_div_iff_of_pos_right hc).2 h1
    have h3 : ((n : ℚ) - 1) * (hi - lo) / ((n : ℚ) - 1) = hi - lo :=
      mul_div_cancel_left₀ _ hc.ne'
    linarith

lemma getMonteCarlo_eq_ok (it : ℕ) (cpus : Option ℕ) (sampler : ℕ → Option ℕ → List ℚ)
    (o : ℚ) (kde : List ℚ → ℚ → ℚ)
    (h0 : it ≠ 0)
    (h1 : (pySort (sampler it cpus)).dedup.length ≠ 1)
    (h2 : 2 ≤ (trimmedSamples (pySort (sampler it cpus)) o).dedup.length) :
    getMonteCarlo it cpus sampler o kde
      = .ok (some (mcSummaryOf it (pySort (sampler it cpus)) o kde)) := by
  unfold getMonteCarlo
  rw [if_neg h0, if_neg h1, if_neg (by omega)]

lemma mcSummaryOf_interval (it : ℕ) (mcData : List ℚ) (o : ℚ) (kde : List ℚ → ℚ → ℚ) :
    (mcSummaryOf it mcData o kde).interval = mcInterval it mcData := rfl

lemma mcSummaryOf_smoothed (it : ℕ) (mcData : List ℚ) (o : ℚ) (kde : List ℚ → ℚ → ℚ) :
    (mcSummaryOf it mcData o kde).smoothed
      = (linspace (mcLo (trimmedSamples mcData o)) (mcHi (trimmedSamples mcData o)) 500).zip
          ((linspace (mcLo (trimmedSamples mcData o)) (mcHi (trimmedSamples mcData o)) 500).map
            (kde (trimmedSamples mcData o))) := rfl

lemma histDensity_snd (data : List ℚ) (bins : ℕ) :
    (histDensity data bins).2 = histEdges (mcLo data) (mcHi data) bins := rfl

lemma histEdges_length (lo hi : ℚ) (bins : ℕ) : (histEdges lo hi bins).length = bins + 1 := by
  unfold histEdges
  split <;> rw [linspace_length]

lemma histDensity_snd_length (data : List ℚ) (bins : ℕ) :
    (histDensity data bins).2.length = bins + 1 := by
  rw [histDensity_snd, histEdges_length]

lemma histDensity_fst_length (data : List ℚ) (bins : ℕ) :
    (histDensity data bins).1.length = bins := by
  simp [histDensity]

lemma linspace_getD_le {lo hi : ℚ} (h : lo ≤ hi) {n i : ℕ} (hi1 : i < n) (hi2 : i + 1 < n) :
    (linspace lo hi n).getD i 0 ≤ (linspace lo hi n).getD (i + 1) 0 := by
  rw [linspace_getD lo hi hi1, linspace_getD lo hi hi2]
  have hd : 0 ≤ (hi - lo) / ((n : ℚ) - 1) := by
    apply div_nonneg (sub_nonneg.2 h)
    have h1 : (1 : ℚ) ≤ (n : ℚ) := by exact_mod_cast (by omega : 1 ≤ n)
    linarith
  rw [mul_div_assoc, mul_div_assoc]
  have key : (i : ℚ) * ((hi - lo) / ((n : ℚ) - 1))
      ≤ ((i + 1 : ℕ) : ℚ) * ((hi - lo) / ((n : ℚ) - 1)) := by
    apply mul_le_mul_of_nonneg_right _ hd
    push_cast
    linarith
  linarith

lemma histEdges_getD_le {lo hi : ℚ} (h : lo ≤ hi) (bins i : ℕ) (hib : i < bins) :
    (histEdges lo hi bins).getD i 0 ≤ (histEdges lo hi bins).getD (i + 1) 0 := by
  have hb1 : i < bins + 1 := by omega
  have hb2 : i + 1 < bins + 1 := by omega
  unfold histEdges
  by_cases heq : lo = hi
  · rw [if_pos heq]
    exact linspace_getD_le (by linarith) hb1 hb2
  · rw [if_neg heq]
    exact linspace_getD_le h hb1 hb2

lemma histDensity_fst_nonneg {data : List ℚ} {bins : ℕ} (h : mcLo data ≤ mcHi data) :
    ∀ y ∈ (histDensity data bins).1, 0 ≤ y := by
  intro y hy
  simp only [histDensity] at hy
  obtain ⟨i, hi', rfl⟩ := List.mem_map.1 hy
  have hib : i < bins := List.mem_range.1 hi'
  apply div_nonneg (Nat.cast_nonneg _)
  apply mul_nonneg _ (Nat.cast_nonneg _)
  have := histEdges_getD_le h bins i hib
  linarith

/-- The three spec-relevant facts about the histogram polyline
`zip (repeat edges 2) ([0] ++ repeat heights 2 ++ [0])`. -/
lemma hist_props (t : List ℚ) (b : ℕ) (hlh : mcLo t < mcHi t) :
    (∀ p ∈ ((histDensity t b).2.flatMap fun x => [x, x]).zip
        ([(0 : ℚ)] ++ ((histDensity t b).1.flatMap fun y => [y, y]) ++ [(0 : ℚ)]), 0 ≤ p.2)
    ∧ ((((histDensity t b).2.flatMap fun x => [x, x]).zip
        ([(0 : ℚ)] ++ ((histDensity t b).1.flatMap fun y => [y, y]) ++ [(0 : ℚ)])).map
          Prod.snd).head? = some 0
    ∧ ((((histDensity t b).2.flatMap fun x => [x, x]).zip
        ([(0 : ℚ)] ++ ((histDensity t b).1.flatMap fun y => [y, y]) ++ [(0 : ℚ)])).map
          Prod.snd).getLast? = some 0 := by
  have hxlen : ((histDensity t b).2.flatMap fun x => [x, x]).length = 2 * (b + 1) := by
    rw [dup_length, histDensity_snd_length]
  have hylen : ([(0 : ℚ)] ++ ((histDensity t b).1.flatMap fun y => [y, y]) ++ [(0 : ℚ)]).length
      = 2 * b + 2 := by
    simp only [List.length_append, dup_length, histDensity_fst_length, List.length_singleton]
    omega
  have hle : ([(0 : ℚ)] ++ ((histDensity t b).1.flatMap fun y => [y, y]) ++ [(0 : ℚ)]).length
      ≤ ((histDensity t b).2.flatMap fun x => [x, x]).length := by
    rw [hxlen, hylen]
    omega
  have hsnd := List.map_snd_zip _ _ hle
  refine ⟨?_, ?_, ?_⟩
  · intro p hp
    obtain ⟨x, y⟩ := p
    have hy' := (List.of_mem_zip hp).2
    rcases List.mem_append.1 hy' with h' | h'
    · rcases List.mem_append.1 h' with h'' | h''
      · have hz : y = 0 := by simpa using h''
        simp [hz]
      · exact histDensity_fst_nonneg hlh.le y (dup_mem h'')
    · have hz : y = 0 := by simpa using h'
      simp [hz]
  · rw [hsnd]
    simp
  · rw [hsnd]
    exact List.getLast?_concat _

/-- The five spec-relevant facts about the smoothed density polyline
`zip kde_xs (map kdeF kde_xs)` with `kde_xs = linspace (min t) (max t) 500`. -/
lemma smoothed_props (t : List ℚ) (kdeF : ℚ → ℚ) (hlh : mcLo t < mcHi t) :
    ((linspace (mcLo t) (mcHi t) 500).zip
        ((linspace (mcLo t) (mcHi t) 500).map kdeF)).length = 500
    ∧ (((linspace (mcLo t) (mcHi t) 500).zip
        ((linspace (mcLo t) (mcHi t) 500).map kdeF)).map Prod.fst).Pairwise (· < ·)
    ∧ (mcLo t, kdeF (mcLo t)) ∈ (linspace (mcLo t) (mcHi t) 500).zip
        ((linspace (mcLo t) (mcHi t) 500).map kdeF)
    ∧ (mcHi t, kdeF (mcHi t)) ∈ (linspace (mcLo t) (mcHi t) 500).zip
        ((linspace (mcLo t) (mcHi t) 500).map kdeF)
    ∧ ∀ p ∈ (linspace (mcLo t) (mcHi t) 500).zip
        ((linspace (mcLo t) (mcHi t) 500).map kdeF),
        p.2 = kdeF p.1 ∧ mcLo t ≤ p.1 ∧ p.1 ≤ mcHi t := by
  have hzip := zip_self_map (linspace (mcLo t) (mcHi t) 500) kdeF
  have hcomp : (Prod.fst ∘ fun a : ℚ => (a, kdeF a)) = id := rfl
  refine ⟨?_, ?_, ?_, ?_, ?_⟩
  · rw [hzip, List.length_map, linspace_length]
  · rw [hzip, List.map_map, hcomp, List.map_id]
    exact linspace_pairwise hlh (by norm_num)
  · rw [hzip]
    exact List.mem_map.2 ⟨mcLo t, linspace_start_mem (by norm_num), rfl⟩
  · rw [hzip]
    exact List.mem_map.2 ⟨mcHi t, linspace_stop_mem (by norm_num), rfl⟩
  · rw [hzip]
    intro p hp
    obtain ⟨a, ha, rfl⟩ := List.mem_map.1 hp
    have hb := linspace_mem_bounds hlh.le (by norm_num) a ha
    exact ⟨rfl, hb.1, hb.2⟩

lemma mcSummaryOf_histogram (it : ℕ) (mcData : List ℚ) (o : ℚ) (kde : List ℚ → ℚ → ℚ) :
    (mcSummaryOf it mcData o kde).histogram
      = ((histDensity (trimmedSamples mcData o) (numBins it)).2.flatMap fun x => [x, x]).zip
          ([(0 : ℚ)]
            ++ ((histDensity (trimmedSamples mcData o) (numBins it)).1.flatMap fun y => [y, y])
            ++ [(0 : ℚ)]) := rfl

lemma upload_cond_false {u : String} (hu : u ≠ "") :
    (!true || !(pyTruthyStr (some u))) = false := by
  simp [pyTruthyStr, hu]

lemma upload_ok_200 (s : SerializedLCAReport) (r : Report) (u : String)
    (hrep : s.report = some r) (hu : u ≠ "") :
    SerializedLCAReport.upload s true (some u) 200
      = .ok (some (normalizeUrl u ++ "report/" ++ s.uuid),
          { s with report := some (r.setOnline (normalizeUrl u ++ "report/" ++ s.uuid)) }) := by
  unfold SerializedLCAReport.upload
  rw [upload_cond_false hu, if_neg Bool.false_ne_true, hrep]
  rfl

lemma upload_non200 (s : SerializedLCAReport) (r : Report) (u : String) (status : ℕ)
    (hrep : s.report = some r) (hu : u ≠ "") (hst : status ≠ 200) :
    SerializedLCAReport.upload s true (some u) status = .ok (none, s) := by
  unfold SerializedLCAReport.upload
  rw [upload_cond_false hu, if_neg Bool.false_ne_true, hrep]
  simp only [if_neg hst]

lemma upload_result_uuid (s : SerializedLCAReport) (flag : Bool) (urlOpt : Option String)
    (status : ℕ) (res : Option String) (s'' : SerializedLCAReport)
    (h : SerializedLCAReport.upload s flag urlOpt status = .ok (res, s'')) :
    s''.uuid = s.uuid
    ∧ ∀ rurl, res = some rurl
        → rurl = normalizeUrl (urlOpt.getD "") ++ "report/" ++ s.uuid := by
  unfold SerializedLCAReport.upload at h
  split at h
  · cases h
  · split at h
    · cases h
    · split at h
      · injection h with h'
        rw [Prod.mk.injEq] at h'
        obtain ⟨hres, hs''⟩ := h'
        subst hs''
        refine ⟨rfl, ?_⟩
        intro rurl hr
        rw [← hres] at hr
        injection hr with hr'
        exact hr'.symm
      · injection h with h'
        rw [Prod.mk.injEq] at h'
        obtain ⟨hres, hs''⟩ := h'
        subst hs''
        refine ⟨rfl, ?_⟩
        intro rurl hr
        rw [← hres] at hr
        cases hr

/-! ### Claims -/

/-- Claim C1, counterexample: for the non-degenerate sample set `[1, 2, 3, 4]`
(`N = 4`) and the outliers fraction `0 ∈ [0, 0.5)`, the trimmed sample set has
size `0`, not `N - 2 * int(0 * N) = 4`: the Python slice `mc_data[0:-0]` is
empty. -/
theorem c1_counterexample :
    (trimmedSamples (pySort [(1 : ℚ), 2, 3, 4]) 0).length
        ≠ [(1 : ℚ), 2, 3, 4].length - 2 * pyInt ((0 : ℚ) * ([(1 : ℚ), 2, 3, 4].length : ℚ))
      ∧ (pySort [(1 : ℚ), 2, 3, 4]).dedup.length ≠ 1
      ∧ (0 : ℚ) ≤ 0 ∧ (0 : ℚ) < 1 / 2 := by
  with_unfolding_all decide

/-- Claim C1 (amended): for every raw sample set of size `N` and every
outliers fraction in `[0, 0.5)` whose trimming offset `int(outliers * N)` is
at least `1`, the trimmed sample set produced by `get_monte_carlo` before
density/histogram estimation has size exactly `N - 2 * int(outliers * N)`, and
that size is strictly less than `N`.  (When the offset is `0` — in particular
for `outliers = 0` — the slice `mc_data[offset:-offset]` instead empties the
set, see `c1_counterexample`.) -/
theorem c1_trimmed_size (samples : List ℚ) (outliers : ℚ)
    (h0 : 0 ≤ outliers) (h1 : outliers < 1 / 2)
    (hoff : 1 ≤ pyInt (outliers * (samples.length : ℚ))) :
    (trimmedSamples (pySort samples) outliers).length
        = samples.length - 2 * pyInt (outliers * (samples.length : ℚ))
      ∧ (trimmedSamples (pySort samples) outliers).length < samples.length := by
  have hlen : (pySort samples).length = samples.length := pySort_length samples
  have hkey : (trimmedSamples (pySort samples) outliers).length
      = samples.length - 2 * pyInt (outliers * (samples.length : ℚ)) := by
    unfold trimmedSamples
    rw [hlen, pySliceSym_length _ _ (by omega), hlen]
  refine ⟨hkey, ?_⟩
  rw [hkey]
  have hnpos : 0 < samples.length := by
    by_contra hz
    have h0' : samples.length = 0 := by omega
    rw [h0'] at hoff
    rw [pyInt_eq_floor] at hoff
    simp at hoff
  omega

/-- Witness for C1 at `samples = [1, 2, 3, 4]`, `outliers = 3/10`: the offset
is `int(1.2) = 1` and the trimmed size is `4 - 2 = 2 < 4`. -/
theorem c1_witness :
    (trimmedSamples (pySort [(1 : ℚ), 2, 3, 4]) (3 / 10)).length
        = [(1 : ℚ), 2, 3, 4].length - 2 * pyInt ((3 / 10 : ℚ) * ([(1 : ℚ), 2, 3, 4].length : ℚ))
      ∧ (trimmedSamples (pySort [(1 : ℚ), 2, 3, 4]) (3 / 10)).length < [(1 : ℚ), 2, 3, 4].length :=
  c1_trimmed_size [(1 : ℚ), 2, 3, 4] (3 / 10) (by norm_num) (by norm_num)
    (by with_unfolding_all decide)

/-- Claim C2: for every raw sample set on which `get_monte_carlo` produces a
summary, the reported `interval` is computed from the *untrimmed* sorted
samples as `lower = samples[int(0.015 * iterations)]` and
`upper = samples[int(0.985 * iterations)]`, and this pair does not depend on
the `outliers` parameter (two runs with different `outliers` report the same
interval). -/
theorem c2_interval_untrimmed (it : ℕ) (cpus : Option ℕ) (sampler : ℕ → Option ℕ → List ℚ)
    (o₁ o₂ : ℚ) (kde : List ℚ → ℚ → ℚ)
    (h0 : it ≠ 0)
    (h1 : (pySort (sampler it cpus)).dedup.length ≠ 1)
    (h2 : 2 ≤ (trimmedSamples (pySort (sampler it cpus)) o₁).dedup.length)
    (h3 : 2 ≤ (trimmedSamples (pySort (sampler it cpus)) o₂).dedup.length) :
    ∃ s₁ s₂,
      getMonteCarlo it cpus sampler o₁ kde = .ok (some s₁)
      ∧ getMonteCarlo it cpus sampler o₂ kde = .ok (some s₂)
      ∧ s₁.interval = s₂.interval
      ∧ s₁.interval
          = ((pySort (sampler it cpus)).getD (pyInt ((15 / 1000 : ℚ) * it)) 0,
             (pySort (sampler it cpus)).getD (pyInt ((985 / 1000 : ℚ) * it)) 0) :=
  ⟨_, _, getMonteCarlo_eq_ok it cpus sampler o₁ kde h0 h1 h2,
    getMonteCarlo_eq_ok it cpus sampler o₂ kde h0 h1 h3, rfl, rfl⟩

/-- Witness for C2 at the ten samples `[1, ..., 10]` with outliers fractions
`1/10` and `2/10` (offsets 1 and 2, both trimmed sets non-degenerate). -/
theorem c2_witness :
    ∃ s₁ s₂,
      getMonteCarlo 10 none (fun _ _ => [1, 2, 3, 4, 5, 6, 7, 8, 9, 10]) (1 / 10)
          (fun _ _ => 0) = .ok (some s₁)
      ∧ getMonteCarlo 10 none (fun _ _ => [1, 2, 3, 4, 5, 6, 7, 8, 9, 10]) (2 / 10)
          (fun _ _ => 0) = .ok (some s₂)
      ∧ s₁.interval = s₂.interval
      ∧ s₁.interval
          = ((pySort [1, 2, 3, 4, 5, 6, 7, 8, 9, 10]).getD (pyInt ((15 / 1000 : ℚ) * 10)) 0,
             (pySort [1, 2, 3, 4, 5, 6, 7, 8, 9, 10]).getD (pyInt ((985 / 1000 : ℚ) * 10)) 0) :=
  c2_interval_untrimmed 10 none (fun _ _ => [1, 2, 3, 4, 5, 6, 7, 8, 9, 10]) (1 / 10) (2 / 10)
    (fun _ _ => 0) (by decide) (by with_unfolding_all decide) (by with_unfolding_all decide)
    (by with_unfolding_all decide)

/-- Claim C3: for every `iterations` value, the histogram bin count used by
`get_monte_carlo`, computed as `max(100, min(20, int(sqrt(iterations))))`,
equals exactly `100`; the effective bin count never varies with
`iterations`. -/
theorem c3_num_bins_constant :
    ∀ it it' : ℕ, numBins it = 100 ∧ numBins it = numBins it' := by
  have h : ∀ n : ℕ, numBins n = 100 := by
    intro n
    unfold numBins
    have := Nat.min_le_left 20 (Nat.sqrt n)
    omega
  intro it it'
  rw [h it, h it']
  exact ⟨rfl, rfl⟩

/-- Claim C4: for `iterations = 0`, `get_monte_carlo` returns the absent
result (no summary) regardless of `cpus`, `outliers` and the kde, and without
invoking the sampler: the result is the same for any two samplers. -/
theorem c4_zero_iterations :
    ∀ (cpus cpus' : Option ℕ) (sampler sampler' : ℕ → Option ℕ → List ℚ) (o o' : ℚ)
      (kde kde' : List ℚ → ℚ → ℚ),
      getMonteCarlo 0 cpus sampler o kde = .ok none
      ∧ getMonteCarlo 0 cpus sampler o kde = getMonteCarlo 0 cpus' sampler' o' kde' :=
  fun _ _ _ _ _ _ _ _ => ⟨rfl, rfl⟩

/-- Claim C5: for every raw sample set of positive size whose values are all
identical, `get_monte_carlo` returns the absent result (no summary), not an
error. -/
theorem c5_degenerate_samples (it : ℕ) (cpus : Option ℕ) (sampler : ℕ → Option ℕ → List ℚ)
    (outliers : ℚ) (kde : List ℚ → ℚ → ℚ) (c : ℚ)
    (hne : sampler it cpus ≠ [])
    (hall : ∀ x ∈ sampler it cpus, x = c) :
    getMonteCarlo it cpus sampler outliers kde = .ok none := by
  by_cases h0 : it = 0
  · subst h0
    rfl
  · have hne' : pySort (sampler it cpus) ≠ [] := by
      intro h
      apply hne
      have := pySort_length (sampler it cpus)
      rw [h] at this
      exact List.length_eq_zero.1 this.symm
    have hmem : ∀ x ∈ pySort (sampler it cpus), x = c := fun x hx =>
      hall x ((List.perm_insertionSort _ _).mem_iff.1 hx)
    have hd : (pySort (sampler it cpus)).dedup = [c] :=
      dedup_all_eq _ c hne' hmem
    unfold getMonteCarlo
    rw [if_neg h0, hd]
    simp

/-- Claim C6, counterexample: for the non-degenerate sample set `[1, 2, 2, 3]`
with outliers fraction `1/4` (offset 1), trimming leaves the constant set
`[2, 2]`, on which `gaussian_kde` raises (singular covariance): no smoothed
density sequence is returned at all, refuting the claim for this
non-degenerate sample set. -/
theorem c6_counterexample :
    getMonteCarlo 4 none (fun _ _ => [1, 2, 2, 3]) (1 / 4) (fun _ _ => 0)
        = .error "LinAlgError: singular data passed to gaussian_kde"
      ∧ (pySort [(1 : ℚ), 2, 2, 3]).dedup.length ≠ 1 := by
  constructor
  · with_unfolding_all rfl
  · with_unfolding_all decide

/-- Claim C6 (amended): for every sample set and outliers fraction for which
`get_monte_carlo` returns a summary — i.e. the trimmed set keeps at least two
distinct values — the smoothed density sequence consists of exactly 500
`(x, y)` points whose x-values are strictly ascending and span
`[min(trimmed), max(trimmed)]` (the endpoints are attained and every x lies
between them), with `y` the kernel density estimate over the trimmed samples
evaluated at `x`. -/
theorem c6_smoothed_density (it : ℕ) (cpus : Option ℕ) (sampler : ℕ → Option ℕ → List ℚ)
    (o : ℚ) (kde : List ℚ → ℚ → ℚ)
    (h0 : it ≠ 0)
    (h1 : (pySort (sampler it cpus)).dedup.length ≠ 1)
    (h2 : 2 ≤ (trimmedSamples (pySort (sampler it cpus)) o).dedup.length)
    (hlh : mcLo (trimmedSamples (pySort (sampler it cpus)) o)
        < mcHi (trimmedSamples (pySort (sampler it cpus)) o)) :
    ∃ s, getMonteCarlo it cpus sampler o kde = .ok (some s)
      ∧ s.smoothed.length = 500
      ∧ (s.smoothed.map Prod.fst).Pairwise (· < ·)
      ∧ (mcLo (trimmedSamples (pySort (sampler it cpus)) o),
          kde (trimmedSamples (pySort (sampler it cpus)) o)
            (mcLo (trimmedSamples (pySort (sampler it cpus)) o))) ∈ s.smoothed
      ∧ (mcHi (trimmedSamples (pySort (sampler it cpus)) o),
          kde (trimmedSamples (pySort (sampler it cpus)) o)
            (mcHi (trimmedSamples (pySort (sampler it cpus)) o))) ∈ s.smoothed
      ∧ ∀ p ∈ s.smoothed,
          p.2 = kde (trimmedSamples (pySort (sampler it cpus)) o) p.1
          ∧ mcLo (trimmedSamples (pySort (sampler it cpus)) o) ≤ p.1
          ∧ p.1 ≤ mcHi (trimmedSamples (pySort (sampler it cpus)) o) := by
  have hp := smoothed_props (trimmedSamples (pySort (sampler it cpus)) o)
    (kde (trimmedSamples (pySort (sampler it cpus)) o)) hlh
  refine ⟨_, getMonteCarlo_eq_ok it cpus sampler o kde h0 h1 h2, ?_, ?_, ?_, ?_, ?_⟩
  · rw [mcSummaryOf_smoothed]
    exact hp.1
  · rw [mcSummaryOf_smoothed]
    exact hp.2.1
  · rw [mcSummaryOf_smoothed]
    exact hp.2.2.1
  · rw [mcSummaryOf_smoothed]
    exact hp.2.2.2.1
  · rw [mcSummaryOf_smoothed]
    exact hp.2.2.2.2

/-- Witness for C6 at samples `[0, ..., 9]` with outliers `1/10`: the trimmed
set is `[1, ..., 8]`, non-degenerate with `min = 1 < 8 = max`. -/
theorem c6_witness :
    ∃ s, getMonteCarlo 10 none (fun _ _ => [0, 1, 2, 3, 4, 5, 6, 7, 8, 9]) (1 / 10)
        (fun _ _ => 0) = .ok (some s)
      ∧ s.smoothed.length = 500
      ∧ (s.smoothed.map Prod.fst).Pairwise (· < ·)
      ∧ (mcLo (trimmedSamples (pySort [0, 1, 2, 3, 4, 5, 6, 7, 8, 9]) (1 / 10)),
          (fun (_ : List ℚ) (_ : ℚ) => (0 : ℚ))
            (trimmedSamples (pySort [0, 1, 2, 3, 4, 5, 6, 7, 8, 9]) (1 / 10))
            (mcLo (trimmedSamples (pySort [0, 1, 2, 3, 4, 5, 6, 7, 8, 9]) (1 / 10)))) ∈ s.smoothed
      ∧ (mcHi (trimmedSamples (pySort [0, 1, 2, 3, 4, 5, 6, 7, 8, 9]) (1 / 10)),
          (fun (_ : List ℚ) (_ : ℚ) => (0 : ℚ))
            (trimmedSamples (pySort [0, 1, 2, 3, 4, 5, 6, 7, 8, 9]) (1 / 10))
            (mcHi (trimmedSamples (pySort [0, 1, 2, 3, 4, 5, 6, 7, 8, 9]) (1 / 10)))) ∈ s.smoothed
      ∧ ∀ p ∈ s.smoothed,
          p.2 = (fun (_ : List ℚ) (_ : ℚ) => (0 : ℚ))
              (trimmedSamples (pySort [0, 1, 2, 3, 4, 5, 6, 7, 8, 9]) (1 / 10)) p.1
          ∧ mcLo (trimmedSamples (pySort [0, 1, 2, 3, 4, 5, 6, 7, 8, 9]) (1 / 10)) ≤ p.1
          ∧ p.1 ≤ mcHi (trimmedSamples (pySort [0, 1, 2, 3, 4, 5, 6, 7, 8, 9]) (1 / 10)) :=
  c6_smoothed_density 10 none (fun _ _ => [0, 1, 2, 3, 4, 5, 6, 7, 8, 9]) (1 / 10)
    (fun _ _ => 0) (by decide) (by with_unfolding_all decide) (by with_unfolding_all decide)
    (by with_unfolding_all decide)

/-- Claim C7, counterexample: for the non-degenerate sample set
`[1, 5, 5, 5, 9]` with outliers fraction `1/5` (offset 1), trimming leaves the
constant set `[5, 5, 5]`, on which `gaussian_kde` raises before the histogram
is ever computed: no histogram polyline is returned for this non-degenerate
sample set. -/
theorem c7_counterexample :
    getMonteCarlo 5 none (fun _ _ => [1, 5, 5, 5, 9]) (1 / 5) (fun _ _ => 0)
        = .error "LinAlgError: singular data passed to gaussian_kde"
      ∧ (pySort [(1 : ℚ), 5, 5, 5, 9]).dedup.length ≠ 1 := by
  constructor
  · with_unfolding_all rfl
  · with_unfolding_all decide

/-- Claim C7 (amended): for every sample set and outliers fraction for which
`get_monte_carlo` returns a summary, the histogram polyline is the step
function built by duplicating every bin edge (`np.repeat(hist_xs, 2)`),
duplicating every bin height and padding the height sequence with one leading
and one trailing zero (`np.hstack((0, np.repeat(hist_ys, 2), 0))`);
consequently every y-value is non-negative and the first and last y-values are
exactly `0`. -/
theorem c7_histogram_step (it : ℕ) (cpus : Option ℕ) (sampler : ℕ → Option ℕ → List ℚ)
    (o : ℚ) (kde : List ℚ → ℚ → ℚ)
    (h0 : it ≠ 0)
    (h1 : (pySort (sampler it cpus)).dedup.length ≠ 1)
    (h2 : 2 ≤ (trimmedSamples (pySort (sampler it cpus)) o).dedup.length)
    (hlh : mcLo (trimmedSamples (pySort (sampler it cpus)) o)
        < mcHi (trimmedSamples (pySort (sampler it cpus)) o)) :
    ∃ s, getMonteCarlo it cpus sampler o kde = .ok (some s)
      ∧ s.histogram
          = ((histDensity (trimmedSamples (pySort (sampler it cpus)) o) (numBins it)).2.flatMap
              fun x => [x, x]).zip
            ([(0 : ℚ)]
              ++ ((histDensity (trimmedSamples (pySort (sampler it cpus)) o)
                  (numBins it)).1.flatMap fun y => [y, y])
              ++ [(0 : ℚ)])
      ∧ (∀ p ∈ s.histogram, 0 ≤ p.2)
      ∧ (s.histogram.map Prod.snd).head? = some 0
      ∧ (s.histogram.map Prod.snd).getLast? = some 0 := by
  have hp := hist_props (trimmedSamples (pySort (sampler it cpus)) o) (numBins it) hlh
  refine ⟨_, getMonteCarlo_eq_ok it cpus sampler o kde h0 h1 h2, ?_, ?_, ?_, ?_⟩
  · exact mcSummaryOf_histogram it (pySort (sampler it cpus)) o kde
  · rw [mcSummaryOf_histogram]
    exact hp.1
  · rw [mcSummaryOf_histogram]
    exact hp.2.1
  · rw [mcSummaryOf_histogram]
    exact hp.2.2

/-- Witness for C7 at samples `[10, 20, 30, 40, 50]` with outliers `1/5`: the
trimmed set is `[20, 30, 40]`, non-degenerate with `min = 20 < 40 = max`. -/
theorem c7_witness :
    ∃ s, getMonteCarlo 5 none (fun _ _ => [10, 20, 30, 40, 50]) (1 / 5)
        (fun _ _ => 0) = .ok (some s)
      ∧ s.histogram
          = ((histDensity (trimmedSamples (pySort [10, 20, 30, 40, 50]) (1 / 5))
                (numBins 5)).2.flatMap fun x => [x, x]).zip
            ([(0 : ℚ)]
              ++ ((histDensity (trimmedSamples (pySort [10, 20, 30, 40, 50]) (1 / 5))
                  (numBins 5)).1.flatMap fun y => [y, y])
              ++ [(0 : ℚ)])
      ∧ (∀ p ∈ s.histogram, 0 ≤ p.2)
      ∧ (s.histogram.map Prod.snd).head? = some 0
      ∧ (s.histogram.map Prod.snd).getLast? = some 0 :=
  c7_histogram_step 5 none (fun _ _ => [10, 20, 30, 40, 50]) (1 / 5) (fun _ _ => 0)
    (by decide) (by with_unfolding_all decide) (by with_unfolding_all decide)
    (by with_unfolding_all decide)

/-- Witness for C5: two samples, both equal to `3`. -/
theorem c5_witness :
    getMonteCarlo 2 none (fun _ _ => [3, 3]) (1 / 40) (fun _ _ => 0) = .ok none :=
  c5_degenerate_samples 2 none (fun _ _ => [3, 3]) (1 / 40) (fun _ _ => 0) 3
    (by simp) (by simp)

/-- Claim C8: the uuid is assigned exactly once at construction and every later
operation reads that same value without reassigning it — `calculate` keeps the
state's uuid and embeds it (with the fixed schema constant `version = 1`) in
the report metadata, the filename used by `write` embeds the uuid, and
`upload` keeps the uuid and embeds it in any URL it returns. -/
theorem c8_uuid_stable :
    ∀ (a : String) (m : List String) (it : ℕ) (cp : Option ℕ) (o : ℚ) (u : String)
      (s s' s'' : SerializedLCAReport) (ext : Externals) (flag : Bool)
      (urlOpt : Option String) (status : ℕ) (res : Option String),
      (SerializedLCAReport.init a m it cp o u).uuid = u
      ∧ (SerializedLCAReport.calculate s ext = .ok s' →
          s'.uuid = s.uuid
          ∧ s'.report.map (fun r => r.metadata.uuid) = some s.uuid
          ∧ s'.report.map (fun r => r.metadata.version) = some SerializedLCAReport.version)
      ∧ SerializedLCAReport.write s = "report." ++ s.uuid ++ ".json"
      ∧ (SerializedLCAReport.upload s flag urlOpt status = .ok (res, s'') →
          s''.uuid = s.uuid
          ∧ ∀ rurl, res = some rurl
              → rurl = normalizeUrl (urlOpt.getD "") ++ "report/" ++ s.uuid)
      ∧ SerializedLCAReport.version = 1 := by
  intro a m it cp o u s s' s'' ext flag urlOpt status res
  refine ⟨rfl, ?_, rfl, ?_, rfl⟩
  · intro hcalc
    unfold SerializedLCAReport.calculate at hcalc
    split at hcalc
    · cases hcalc
    · injection hcalc with h
      subst h
      exact ⟨rfl, rfl, rfl⟩
  · exact upload_result_uuid s flag urlOpt status res s''

/-- Witness for C8: a concrete construction, calculation, write and successful
upload, all reusing the construction-time uuid `"deadbeef"`. -/
theorem c8_witness :
    (SerializedLCAReport.init "wood" ["IPCC", "GWP"] 0 none (1 / 40) "deadbeef").uuid = "deadbeef"
    ∧ wCalculated.uuid = wState.uuid
    ∧ wCalculated.report.map (fun r => r.metadata.uuid) = some wState.uuid
    ∧ wCalculated.report.map (fun r => r.metadata.version) = some SerializedLCAReport.version
    ∧ SerializedLCAReport.write wCalculated = "report." ++ wCalculated.uuid ++ ".json"
    ∧ wOnline.uuid = wCalculated.uuid
    ∧ wReportUrl = normalizeUrl ((some "http://srv/").getD "") ++ "report/" ++ wCalculated.uuid
    ∧ SerializedLCAReport.version = 1 := by
  obtain ⟨h1, h2, -, -, h5⟩ :=
    c8_uuid_stable "wood" ["IPCC", "GWP"] 0 none (1 / 40) "deadbeef" wState wCalculated wState
      wExt true (some "x") 404 none
  obtain ⟨ha, hb, hc⟩ := h2 (by with_unfolding_all rfl)
  obtain ⟨-, -, h3', h4', -⟩ :=
    c8_uuid_stable "wood" ["IPCC", "GWP"] 0 none (1 / 40) "deadbeef" wCalculated wCalculated
      wOnline wExt true (some "http://srv/") 200 (some wReportUrl)
  obtain ⟨hd, he⟩ := h4' (by with_unfolding_all rfl)
  exact ⟨h1, ha, hb, hc, h3', hd, he wReportUrl rfl, h5⟩

/-- Claim C9: `upload` fails immediately with the descriptive error
`"Report uploading not allowed"` when the uploads-allowed flag is unset or the
server URL configuration is absent (or falsy); a non-200 HTTP status yields the
plain failure sentinel (`none`, Python `False`) without raising; a 200 response
returns a constructed URL embedding the report's unique id. -/
theorem c9_upload_responses :
    ∀ (s : SerializedLCAReport) (r : Report) (flag : Bool) (urlOpt : Option String)
      (u : String) (status : ℕ),
      SerializedLCAReport.upload s false urlOpt status = .error "Report uploading not allowed"
      ∧ SerializedLCAReport.upload s flag none status = .error "Report uploading not allowed"
      ∧ SerializedLCAReport.upload s flag (some "") status = .error "Report uploading not allowed"
      ∧ (s.report = some r → u ≠ "" → status ≠ 200 →
          SerializedLCAReport.upload s true (some u) status = .ok (none, s))
      ∧ (s.report = some r → u ≠ "" →
          ∃ s', SerializedLCAReport.upload s true (some u) 200
            = .ok (some (normalizeUrl u ++ "report/" ++ s.uuid), s')) := by
  intro s r flag urlOpt u status
  refine ⟨rfl, ?_, ?_, ?_, ?_⟩
  · cases flag <;> rfl
  · cases flag <;> rfl
  · intro hrep hu hst
    exact upload_non200 s r u status hrep hu hst
  · intro hrep hu
    exact ⟨_, upload_ok_200 s r u hrep hu⟩

/-- Witness for C9: concrete configuration failures, a 500-status sentinel
return and a 200-status URL return on the state `u9State`. -/
theorem c9_witness :
    SerializedLCAReport.upload u9State false (some "h") 500
        = .error "Report uploading not allowed"
    ∧ SerializedLCAReport.upload u9State true none 500 = .error "Report uploading not allowed"
    ∧ SerializedLCAReport.upload u9State true (some "") 500
        = .error "Report uploading not allowed"
    ∧ SerializedLCAReport.upload u9State true (some "http://example.org") 500
        = .ok (none, u9State)
    ∧ ∃ s', SerializedLCAReport.upload u9State true (some "http://example.org") 200
        = .ok (some (normalizeUrl "http://example.org" ++ "report/" ++ u9State.uuid), s') := by
  obtain ⟨h1, h2, h3, h4, h5⟩ :=
    c9_upload_responses u9State u9Report true (some "h") "http://example.org" 500
  exact ⟨h1, h2, h3, h4 rfl (by decide) (by decide), h5 rfl (by decide)⟩

/-- Claim C10: `upload` mutates the report document exactly when it succeeds —
on a 200 response it sets the metadata key `"online"` to the constructed
report URL in the returned state, while on a non-200 response it returns the
failure sentinel together with the unchanged state `s`. -/
theorem c10_upload_frame :
    ∀ (s : SerializedLCAReport) (r : Report) (u : String) (status : ℕ),
      s.report = some r → u ≠ "" →
      (status = 200 →
        SerializedLCAReport.upload s true (some u) status
          = .ok (some (normalizeUrl u ++ "report/" ++ s.uuid),
              { s with report := some (r.setOnline (normalizeUrl u ++ "report/" ++ s.uuid)) })
        ∧ (r.setOnline (normalizeUrl u ++ "report/" ++ s.uuid)).metadata.online
            = some (normalizeUrl u ++ "report/" ++ s.uuid))
      ∧ (status ≠ 200 →
        SerializedLCAReport.upload s true (some u) status = .ok (none, s)) := by
  intro s r u status hrep hu
  constructor
  · intro hst
    subst hst
    exact ⟨upload_ok_200 s r u hrep hu, rfl⟩
  · intro hst
    exact upload_non200 s r u status hrep hu hst

/-- Witness for C10: on `u10State`, a 200 upload returns the state whose
report metadata gained the `"online"` URL, and a 404 upload returns the
sentinel with the state unchanged. -/
theorem c10_witness :
    (SerializedLCAReport.upload u10State true (some "http://x") 200
        = .ok (some (normalizeUrl "http://x" ++ "report/" ++ u10State.uuid),
            { u10State with report := some (u10Report.setOnline
                (normalizeUrl "http://x" ++ "report/" ++ u10State.uuid)) })
      ∧ (u10Report.setOnline
            (normalizeUrl "http://x" ++ "report/" ++ u10State.uuid)).metadata.online
          = some (normalizeUrl "http://x" ++ "report/" ++ u10State.uuid))
    ∧ SerializedLCAReport.upload u10State true (some "http://x") 404 = .ok (none, u10State) := by
  obtain ⟨ha, -⟩ := c10_upload_frame u10State u10Report "http://x" 200 rfl (by decide)
  obtain ⟨-, hb⟩ := c10_upload_frame u10State u10Report "http://x" 404 rfl (by decide)
  exact ⟨ha rfl, hb (by decide)⟩

end BW2Report
